import Mathlib

/-!
Shallow embedding of the match-retrieval and aggregation pipeline of
`src/main.py` (the "How Bad Is Your Team" League of Legends analyzer).

Conventions of the embedding:
* numeric computations that Python performs in floating point are modelled
  exactly over `ℚ` (the source only adds, divides, and compares small
  rationals);
* every upstream HTTP call is modelled by an oracle field of `ApiEnv`; a
  non-success HTTP status is the oracle answering `none` (for the identity
  call and the per-match detail call) or `[]` (for the match-id listing,
  mirroring `get_match_ids` returning `[]` on failure);
* the worker additionally produces a trace of `ApiEvent`s recording every
  progress emission and every upstream request it makes.
-/

namespace HowBad

/-- Participant entry of a raw match payload (one element of
`data["info"]["participants"]` in `get_match_details`). -/
structure Participant where
  puuid : String
  championName : String
  kills : Nat
  deaths : Nat
  assists : Nat
  teamId : Nat
  teamPosition : Option String
  totalDamageDealtToChampions : Nat
  win : Bool
deriving Repr, DecidableEq

/-- The fields of a raw match payload (`data["info"]`) that
`get_match_details` reads. -/
structure MatchInfo where
  mapId : Nat
  queueId : Nat
  gameDuration : Nat
  gameVersion : String
  participants : List Participant
deriving Repr, DecidableEq

/-- `POSITIONS` constant of `src/main.py`. -/
def POSITIONS : List String := ["TOP", "JUNGLE", "MIDDLE", "BOTTOM", "UTILITY"]

/-- `QUEUE_TYPES` constant of `src/main.py`. -/
def QUEUE_TYPES : List (Nat × String) :=
  [(400, "Normal Draft"), (420, "Ranked Solo/Duo"), (430, "Normal Blind"),
   (440, "Ranked Flex"), (700, "Clash")]

/-- The queue ids skipped by `get_match_details`
(`[450, 1090, 1100, 1110, 1130, 1150, 1200]`, ARAM and TFT queues). -/
def EXCLUDED_QUEUES : List Nat := [450, 1090, 1100, 1110, 1130, 1150, 1200]

/-- `QUEUE_TYPES.get(queue_id, "Summoner's Rift")` in `get_match_details`. -/
def queue_type_label (queue_id : Nat) : String :=
  match QUEUE_TYPES.find? (fun e => e.1 == queue_id) with
  | some e => e.2
  | none => "Summoner\x27s Rift"

/-- The structured dictionary returned by `get_match_details`.  The two
`*_by_position` dictionaries are modelled as association lists keyed by
`POSITIONS`, in insertion order. -/
structure MatchData where
  match_id : String
  duration : ℚ
  win : Bool
  game_type : String
  queue_id : Nat
  game_version : String
  player : Option Participant
  allied_team : List Participant
  enemy_team : List Participant
  allied_by_position : List (String × Option Participant)
  enemy_by_position : List (String × Option Participant)
deriving Repr, DecidableEq

/-- The loop of `get_match_details` that builds `allied_by_position` /
`enemy_by_position`: for every canonical position, the first participant of
the team whose `teamPosition` equals that position (`next(..., None)`). -/
def by_position (team : List Participant) : List (String × Option Participant) :=
  POSITIONS.map (fun position =>
    (position, team.find? (fun p => p.teamPosition == some position)))

/-- `ApiWorker.get_match_details(self, puuid, match_id)`.  The HTTP response
for the match id is passed in as `resp` (`none` models a non-200 status).
Returning `none` models the Python function returning `None`. -/
def get_match_details (puuid : String) (match_id : String) :
    Option MatchInfo → Option MatchData
  | none => none
  | some data =>
    if data.mapId ≠ 11 then none
    else if data.queueId ∈ EXCLUDED_QUEUES then none
    else
      let players := data.participants
      let team1 := players.filter (fun p => p.teamId == 100)
      let team2 := players.filter (fun p => p.teamId == 200)
      let player_team := if team1.any (fun p => p.puuid == puuid) then 1 else 2
      let allied_team := if player_team == 1 then team1 else team2
      let enemy_team := if player_team == 1 then team2 else team1
      let player := players.find? (fun p => p.puuid == puuid)
      let win := match player with | some p => p.win | none => false
      some {
        match_id := match_id
        duration := (data.gameDuration : ℚ) / 60
        win := win
        game_type := queue_type_label data.queueId
        queue_id := data.queueId
        game_version := data.gameVersion
        player := player
        allied_team := allied_team
        enemy_team := enemy_team
        allied_by_position := by_position allied_team
        enemy_by_position := by_position enemy_team
      }

/-- The `kda_ratio` computation of `MatchCardWidget.format_ally_kda`:
`(kills + assists) / max(1, deaths)`. -/
def format_ally_kda (p : Participant) : ℚ :=
  ((p.kills + p.assists : Nat) : ℚ) / ((max 1 p.deaths : Nat) : ℚ)

/-- The `kda_ratio` computation of `MatchCardWidget.format_enemy_kda`
(textually identical to the allied one). -/
def format_enemy_kda (p : Participant) : ℚ :=
  ((p.kills + p.assists : Nat) : ℚ) / ((max 1 p.deaths : Nat) : ℚ)

/-- The `ally_kda` computation inside `create_summary_frame`:
`(ally["kills"] + ally["assists"]) / max(1, ally["deaths"])`. -/
def summary_ally_kda (p : Participant) : ℚ :=
  ((p.kills + p.assists : Nat) : ℚ) / ((max 1 p.deaths : Nat) : ℚ)

/-- The `enemy_kda` computation inside `create_summary_frame`. -/
def summary_enemy_kda (p : Participant) : ℚ :=
  ((p.kills + p.assists : Nat) : ℚ) / ((max 1 p.deaths : Nat) : ℚ)

/-- The KDA formula exactly as the specification words it:
`(kills+assists)/max(1,deaths)` with the deaths floored at 1. -/
def KDA_spec (kills deaths assists : Nat) : ℚ :=
  ((kills : ℚ) + (assists : ℚ)) / max 1 (deaths : ℚ)

/-- The analyzed player's id as read by `create_summary_frame`
(`match["player"]["puuid"]`).  The source indexes the `player` field
directly, so here it is read through the `Option`. -/
def analyzed_puuid (m : MatchData) : Option String :=
  m.player.map Participant.puuid

/-- The `team_kdas` list built by `create_summary_frame`: per-participant KDA
of every allied participant of every match whose puuid differs from the
analyzed player's. -/
def summary_team_kdas (ms : List MatchData) : List ℚ :=
  ms.flatMap (fun m =>
    ((m.allied_team.filter (fun p => some p.puuid != analyzed_puuid m)).map
      summary_ally_kda))

/-- The `enemy_kdas` list built by `create_summary_frame`. -/
def summary_enemy_kdas (ms : List MatchData) : List ℚ :=
  ms.flatMap (fun m => m.enemy_team.map summary_enemy_kda)

/-- `sum(kdas) / len(kdas) if kdas else 0` in `create_summary_frame`. -/
def summary_avg (kdas : List ℚ) : ℚ :=
  if kdas ≠ [] then kdas.sum / (kdas.length : ℚ) else 0

/-- `avg_team_kda` of `create_summary_frame`. -/
def avg_team_kda (ms : List MatchData) : ℚ :=
  summary_avg (summary_team_kdas ms)

/-- `avg_enemy_kda` of `create_summary_frame`. -/
def avg_enemy_kda (ms : List MatchData) : ℚ :=
  summary_avg (summary_enemy_kdas ms)

/-- `team_quality = avg_team_kda / avg_enemy_kda if avg_enemy_kda > 0 else 0`. -/
def summary_team_quality (ms : List MatchData) : ℚ :=
  if avg_enemy_kda ms > 0 then avg_team_kda ms / avg_enemy_kda ms
  else 0

/-- `player_kills` of `create_summary_frame`: kills of the analyzed player
summed over all ms (the source indexes `match["player"]["kills"]`
directly; an absent player contributes 0 here). -/
def overall_player_kills (ms : List MatchData) : Nat :=
  (ms.map (fun m => match m.player with | some p => p.kills | none => 0)).sum

/-- `player_deaths` of `create_summary_frame`. -/
def overall_player_deaths (ms : List MatchData) : Nat :=
  (ms.map (fun m => match m.player with | some p => p.deaths | none => 0)).sum

/-- `player_assists` of `create_summary_frame`. -/
def overall_player_assists (ms : List MatchData) : Nat :=
  (ms.map (fun m => match m.player with | some p => p.assists | none => 0)).sum

/-- `player_kda = (player_kills + player_assists) / max(1, player_deaths)` in
`create_summary_frame`: the cross-match aggregate KDA. -/
def overall_player_kda (ms : List MatchData) : ℚ :=
  ((overall_player_kills ms + overall_player_assists ms : Nat) : ℚ) /
    ((max 1 (overall_player_deaths ms) : Nat) : ℚ)

/-- The quality-level cascade at the end of `create_summary_frame`; returns
the `(assessment, quality_type)` pair chosen by the if/elif chain. -/
def quality_assessment (team_quality : ℚ) : String × String :=
  if team_quality ≥ 1.3 then
    ("AMAZING - You have exceptional teammates!", "amazing")
  else if team_quality ≥ 1.1 then
    ("GOOD - Your teammates are performing well", "good")
  else if team_quality ≥ 0.9 then
    ("AVERAGE - Your teammates are on par with enemies", "average")
  else if team_quality ≥ 0.7 then
    ("BELOW AVERAGE - Your teammates are struggling a bit", "below_average")
  else
    ("BAD - Your teammates are significantly underperforming", "bad")

/-- Oracle view of the upstream Riot API, one field per endpoint that
`ApiWorker` calls.  `puuid_resp` is `get_puuid` (already reduced to the
puuid on a 200 status, `none` otherwise); `match_ids_resp` is
`get_match_ids` (already `[]` on a non-success status); `match_detail_resp`
is the raw per-match HTTP payload fed to `get_match_details`. -/
structure ApiEnv where
  puuid_resp : String → String → Option String
  match_ids_resp : String → Nat → List String
  match_detail_resp : String → Option MatchInfo

/-- Observable events of one `ApiWorker.run`: progress-signal emissions and
upstream requests issued after identity resolution. -/
inductive ApiEvent where
  | progressEv (value : Nat)
  | matchIdsRequest (count : Nat)
  | matchDetailRequest (id : String)
deriving Repr, DecidableEq

/-- Terminal signal of one `ApiWorker.run`: `finishedOk` models
`self.finished.emit(results)`, `errorMsg` models `self.error.emit(...)`. -/
inductive RunOutcome where
  | finishedOk (results : List MatchData)
  | errorMsg (message : String)
deriving Repr, DecidableEq

/-- One `self.get_match_details(puuid, match_id)` call of the fetch loop,
with the HTTP layer answered by the environment. -/
def fetch_one (env : ApiEnv) (puuid : String) (match_id : String) :
    Option MatchData :=
  get_match_details puuid match_id (env.match_detail_resp match_id)

/-- The `for idx, match_id in enumerate(match_ids)` loop of
`ApiWorker.run`.  `total_ids` is `len(match_ids)`; the per-iteration
progress value `30 + int((idx + 1) / len(match_ids) * 70)` is modelled by
the exact rational floor `30 + ((idx + 1) * 70) / total_ids`.  The loop
breaks as soon as `len(results) >= match_count` after an append. -/
def fetch_loop (env : ApiEnv) (puuid : String) (match_count total_ids : Nat) :
    List String → Nat → List MatchData → List ApiEvent × List MatchData
  | [], _, results => ([], results)
  | match_id :: rest, idx, results =>
    let events := [ApiEvent.progressEv (30 + ((idx + 1) * 70) / total_ids),
                   ApiEvent.matchDetailRequest match_id]
    match fetch_one env puuid match_id with
    | some match_data =>
      let results := results ++ [match_data]
      if match_count ≤ results.length then (events, results)
      else
        let next := fetch_loop env puuid match_count total_ids rest (idx + 1) results
        (events ++ next.1, next.2)
    | none =>
      let next := fetch_loop env puuid match_count total_ids rest (idx + 1) results
      (events ++ next.1, next.2)

/-- `ApiWorker.run(self)`: the whole pipeline, returning the event trace and
the terminal outcome. -/
def worker_run (env : ApiEnv) (nick tag : String) (match_count : Nat) :
    List ApiEvent × RunOutcome :=
  let events0 := [ApiEvent.progressEv 5]
  match env.puuid_resp nick tag with
  | none =>
    (events0, RunOutcome.errorMsg
      "Could not retrieve player PUUID. Check your Riot ID and API key.")
  | some puuid =>
    let request_count := match_count * 2
    let events1 := events0 ++ [ApiEvent.progressEv 10,
                               ApiEvent.matchIdsRequest request_count]
    let match_ids := env.match_ids_resp puuid request_count
    if match_ids = [] then
      (events1, RunOutcome.errorMsg "No matches found for this player.")
    else
      let events2 := events1 ++ [ApiEvent.progressEv 30]
      let looped := fetch_loop env puuid match_count match_ids.length match_ids 0 []
      if looped.2 = [] then
        (events2 ++ looped.1, RunOutcome.errorMsg
          "No valid Summoner\x27s Rift matches found for this player.")
      else
        (events2 ++ looped.1, RunOutcome.finishedOk looped.2)

/-- The successive values carried by `progressEv` events of a trace. -/
def progress_values : List ApiEvent → List Nat
  | [] => []
  | ApiEvent.progressEv v :: rest => v :: progress_values rest
  | _ :: rest => progress_values rest

/-- The match ids requested from the match-detail endpoint, in order. -/
def detail_requests : List ApiEvent → List String
  | [] => []
  | ApiEvent.matchDetailRequest i :: rest => i :: detail_requests rest
  | _ :: rest => detail_requests rest

/-- The counts requested from the match-id listing endpoint, in order. -/
def ids_request_counts : List ApiEvent → List Nat
  | [] => []
  | ApiEvent.matchIdsRequest c :: rest => c :: ids_request_counts rest
  | _ :: rest => ids_request_counts rest

/-! ### Helper lemmas -/

theorem kda_cast_eq (k d a : Nat) :
    ((k + a : Nat) : ℚ) / ((max 1 d : Nat) : ℚ) = KDA_spec k d a := by
  unfold KDA_spec
  push_cast
  rfl

theorem KDA_spec_nonneg (k d a : Nat) : 0 ≤ KDA_spec k d a := by
  unfold KDA_spec
  positivity

theorem summary_ally_kda_eq_spec :
    summary_ally_kda = fun p => KDA_spec p.kills p.deaths p.assists := by
  funext p
  exact kda_cast_eq p.kills p.deaths p.assists

theorem summary_enemy_kda_eq_spec :
    summary_enemy_kda = fun p => KDA_spec p.kills p.deaths p.assists := by
  funext p
  exact kda_cast_eq p.kills p.deaths p.assists

theorem summary_avg_nonneg (l : List ℚ) (h : ∀ q ∈ l, 0 ≤ q) :
    0 ≤ summary_avg l := by
  unfold summary_avg
  split
  · exact div_nonneg (List.sum_nonneg h) (Nat.cast_nonneg _)
  · exact le_refl 0

theorem summary_enemy_kdas_nonneg (ms : List MatchData) :
    ∀ q ∈ summary_enemy_kdas ms, 0 ≤ q := by
  intro q hq
  unfold summary_enemy_kdas at hq
  rw [List.mem_flatMap] at hq
  obtain ⟨m, _, hq⟩ := hq
  rw [List.mem_map] at hq
  obtain ⟨p, _, rfl⟩ := hq
  rw [summary_enemy_kda_eq_spec]
  exact KDA_spec_nonneg p.kills p.deaths p.assists

theorem find?_filter_head? {α : Type} (p : α → Bool) (l : List α) :
    l.find? p = (l.filter p).head? := by
  induction l with
  | nil => rfl
  | cons a l ih =>
    by_cases h : p a
    · rw [List.find?_cons_of_pos _ h, List.filter_cons_of_pos h, List.head?_cons]
    · rw [List.find?_cons_of_neg _ h, List.filter_cons_of_neg h, ih]

theorem by_position_spec (team : List Participant) :
    by_position team = POSITIONS.map (fun r =>
      (r, (team.filter (fun p => p.teamPosition == some r)).head?)) := by
  unfold by_position
  refine List.map_congr_left ?_
  intro r _
  rw [find?_filter_head?]

/-! ### Claim theorems -/

/-- C1: for every participant with kills `k`, deaths `d`, assists `a`, the
KDA the program computes — in the per-match card display and in the
cross-match player aggregate — is `(k+a)/max(1,d)`; when `d = 0` this is
`k + a` (so `4/0/6` gives `10`) and no division by zero occurs. -/
theorem C1_kda_formula (p : Participant) (ms : List MatchData) (k a : Nat) :
    format_ally_kda p = KDA_spec p.kills p.deaths p.assists ∧
    format_enemy_kda p = KDA_spec p.kills p.deaths p.assists ∧
    summary_ally_kda p = KDA_spec p.kills p.deaths p.assists ∧
    overall_player_kda ms =
      KDA_spec (overall_player_kills ms) (overall_player_deaths ms)
        (overall_player_assists ms) ∧
    KDA_spec k 0 a = (k : ℚ) + a ∧
    KDA_spec 4 0 6 = 10 := by
  refine ⟨kda_cast_eq _ _ _, kda_cast_eq _ _ _, kda_cast_eq _ _ _,
    kda_cast_eq _ _ _, ?_, by norm_num [KDA_spec]⟩
  unfold KDA_spec
  norm_num

/-- C2: the aggregate collects the KDA of every allied participant other
than the analyzed player and of every enemy participant across all matches,
averages each collection (an empty collection averaging to 0, not an
error), and sets `teamQuality = avgAllyKDA / avgEnemyKDA` with 0 exactly
when `avgEnemyKDA` is 0. -/
theorem C2_aggregate (ms : List MatchData) (x : ℚ) (l : List ℚ) :
    summary_team_kdas ms =
      ms.flatMap (fun m =>
        (m.allied_team.filter (fun p => some p.puuid != analyzed_puuid m)).map
          (fun p => KDA_spec p.kills p.deaths p.assists)) ∧
    summary_enemy_kdas ms =
      ms.flatMap (fun m =>
        m.enemy_team.map (fun p => KDA_spec p.kills p.deaths p.assists)) ∧
    summary_avg [] = 0 ∧
    summary_avg (x :: l) = (x :: l).sum / ((x :: l).length : ℚ) ∧
    summary_team_quality ms =
      (if avg_enemy_kda ms = 0 then 0
       else avg_team_kda ms / avg_enemy_kda ms) := by
  refine ⟨?_, ?_, rfl, ?_, ?_⟩
  · unfold summary_team_kdas
    rw [summary_ally_kda_eq_spec]
  · unfold summary_enemy_kdas
    rw [summary_enemy_kda_eq_spec]
  · simp [summary_avg]
  · unfold summary_team_quality avg_team_kda avg_enemy_kda
    rcases eq_or_lt_of_le (summary_avg_nonneg _ (summary_enemy_kdas_nonneg ms)) with h | h
    · rw [if_neg (by linarith), if_pos h.symm]
    · rw [if_pos h, if_neg (ne_of_gt h)]

/-- C3: the team-quality classification is decided by inclusive lower
bounds tried top-down: at least 1.3 is "amazing", then 1.1 "good", 0.9
"average", 0.7 "below average", anything lower "bad"; a quality of exactly
1.3 classifies as amazing. -/
theorem C3_classification (q : ℚ) :
    ((quality_assessment q).2 = "amazing" ↔ 1.3 ≤ q) ∧
    ((quality_assessment q).2 = "good" ↔ 1.1 ≤ q ∧ q < 1.3) ∧
    ((quality_assessment q).2 = "average" ↔ 0.9 ≤ q ∧ q < 1.1) ∧
    ((quality_assessment q).2 = "below_average" ↔ 0.7 ≤ q ∧ q < 0.9) ∧
    ((quality_assessment q).2 = "bad" ↔ q < 0.7) ∧
    (quality_assessment 1.3).2 = "amazing" := by
  have h13 : (quality_assessment 1.3).2 = "amazing" := by
    norm_num [quality_assessment]
  refine ⟨?_, ?_, ?_, ?_, ?_, h13⟩ <;>
    · unfold quality_assessment
      split_ifs with h1 h2 h3 h4 <;> simp <;>
        first
          | linarith
          | (constructor <;> linarith)
          | (intro hx; linarith)

/-- C4: a match whose upstream response has a non-success status, or whose
map id is not 11, or whose queue id lies in the ARAM/TFT exclusion set, is
returned as absent by `get_match_details`, regardless of its participant
content. -/
theorem C4_filtered_absent (puuid match_id : String) (resp : Option MatchInfo)
    (h : resp = none ∨ ∃ data, resp = some data ∧
      (data.mapId ≠ 11 ∨ data.queueId ∈ EXCLUDED_QUEUES)) :
    get_match_details puuid match_id resp = none := by
  rcases h with rfl | ⟨data, rfl, hd⟩
  · rfl
  · simp only [get_match_details]
    rcases hd with hmap | hq
    · rw [if_pos hmap]
    · by_cases h1 : data.mapId ≠ 11
      · rw [if_pos h1]
      · rw [if_neg h1, if_pos hq]

/-- Witness for C4: an ARAM match (queue 450) on map 11 is absent. -/
theorem C4_filtered_absent_witness :
    get_match_details "P" "m" (some ⟨11, 450, 1800, "v", []⟩) = none :=
  C4_filtered_absent "P" "m" _ (Or.inr ⟨_, rfl, Or.inr (by decide)⟩)

theorem by_position_keys (team : List Participant) :
    (by_position team).map Prod.fst = POSITIONS := by
  unfold by_position
  rw [List.map_map]
  rfl

/-- C9: in every fetched match, each team's role mapping holds, for each of
the five canonical roles, the first participant of that team whose role
field equals the role (absent if none does); its keys are exactly the five
roles, so there is at most one participant per role, extra same-role
participants stay only in the raw team lists, and duplicates never error. -/
theorem C9_role_mapping (puuid match_id : String) (resp : Option MatchInfo)
    (md : MatchData) (h : get_match_details puuid match_id resp = some md) :
    md.allied_by_position = POSITIONS.map (fun r =>
      (r, (md.allied_team.filter (fun p => p.teamPosition == some r)).head?)) ∧
    md.enemy_by_position = POSITIONS.map (fun r =>
      (r, (md.enemy_team.filter (fun p => p.teamPosition == some r)).head?)) ∧
    md.allied_by_position.map Prod.fst = POSITIONS ∧
    md.enemy_by_position.map Prod.fst = POSITIONS ∧
    POSITIONS.Nodup := by
  have hfields : md.allied_by_position = by_position md.allied_team ∧
      md.enemy_by_position = by_position md.enemy_team := by
    rcases resp with _ | data
    · exact Option.noConfusion h
    · simp only [get_match_details] at h
      split_ifs at h <;>
        first
          | exact Option.noConfusion h
          | (rw [Option.some_inj] at h; subst h; exact ⟨rfl, rfl⟩)
  obtain ⟨ha, he⟩ := hfields
  refine ⟨?_, ?_, ?_, ?_, by decide⟩
  · rw [ha, by_position_spec]
  · rw [he, by_position_spec]
  · rw [ha, by_position_keys]
  · rw [he, by_position_keys]

def w_ally1 : Participant := ⟨"A", "Ahri", 4, 0, 6, 100, some "MIDDLE", 100, true⟩

def w_ally2 : Participant := ⟨"B", "Lux", 2, 5, 3, 100, some "MIDDLE", 90, true⟩

def w_dup_info : MatchInfo := ⟨11, 420, 1800, "14.1", [w_ally1, w_ally2]⟩

def w_dup_md : MatchData :=
  { match_id := "m"
    duration := ((1800 : Nat) : ℚ) / 60
    win := true
    game_type := "Ranked Solo/Duo"
    queue_id := 420
    game_version := "14.1"
    player := some w_ally1
    allied_team := [w_ally1, w_ally2]
    enemy_team := []
    allied_by_position := [("TOP", none), ("JUNGLE", none),
      ("MIDDLE", some w_ally1), ("BOTTOM", none), ("UTILITY", none)]
    enemy_by_position := [("TOP", none), ("JUNGLE", none), ("MIDDLE", none),
      ("BOTTOM", none), ("UTILITY", none)] }

/-- Witness for C9: a match with two allied MIDDLE participants keeps only
the first of them in the role mapping while both stay in the team list. -/
theorem C9_role_mapping_witness :
    w_dup_md.allied_by_position = POSITIONS.map (fun r =>
      (r, (w_dup_md.allied_team.filter (fun p => p.teamPosition == some r)).head?)) ∧
    w_dup_md.enemy_by_position = POSITIONS.map (fun r =>
      (r, (w_dup_md.enemy_team.filter (fun p => p.teamPosition == some r)).head?)) ∧
    w_dup_md.allied_by_position.map Prod.fst = POSITIONS ∧
    w_dup_md.enemy_by_position.map Prod.fst = POSITIONS ∧
    POSITIONS.Nodup :=
  C9_role_mapping "A" "m" (some w_dup_info) w_dup_md rfl

/-- C10: a payload passing the map and queue filters whose analyzed player
is on no team-100 participant still yields a summary, with team 200 labeled
allied and team 100 labeled enemy; when the player matches no participant
at all, the summary's win flag is `false`; neither case errors. -/
theorem C10_team_labeling (puuid match_id : String) (data : MatchInfo)
    (hmap : data.mapId = 11) (hq : data.queueId ∉ EXCLUDED_QUEUES)
    (hno100 : ∀ p ∈ data.participants, p.teamId = 100 → p.puuid ≠ puuid) :
    ∃ md, get_match_details puuid match_id (some data) = some md ∧
      md.allied_team = data.participants.filter (fun p => p.teamId == 200) ∧
      md.enemy_team = data.participants.filter (fun p => p.teamId == 100) ∧
      ((∀ p ∈ data.participants, p.puuid ≠ puuid) → md.win = false) := by
  have hany : (data.participants.filter (fun p => p.teamId == 100)).any
      (fun p => p.puuid == puuid) = false := by
    rw [List.any_eq_false]
    intro x hx
    rw [List.mem_filter] at hx
    simp only [beq_iff_eq] at hx ⊢
    exact hno100 x hx.1 hx.2
  simp only [get_match_details]
  rw [if_neg (fun hcon => hcon hmap), if_neg hq]
  refine ⟨_, rfl, ?_, ?_, ?_⟩
  · simp [hany]
  · simp [hany]
  · intro hall
    have hfind : data.participants.find? (fun p => p.puuid == puuid) = none := by
      rw [List.find?_eq_none]
      intro x hx
      simpa using hall x hx
    simp [hfind]

def w_enemy_info : MatchInfo :=
  ⟨11, 400, 600, "14.1", [⟨"C", "Zed", 1, 2, 3, 200, some "TOP", 80, false⟩]⟩

/-- Witness for C10: a payload whose only participant is on team 200 and is
not the analyzed player still yields a summary with that participant
allied, an empty enemy team, and a `false` win flag. -/
theorem C10_team_labeling_witness :
    ∃ md, get_match_details "A" "m" (some w_enemy_info) = some md ∧
      md.allied_team = w_enemy_info.participants.filter (fun p => p.teamId == 200) ∧
      md.enemy_team = w_enemy_info.participants.filter (fun p => p.teamId == 100) ∧
      ((∀ p ∈ w_enemy_info.participants, p.puuid ≠ "A") → md.win = false) :=
  C10_team_labeling "A" "m" w_enemy_info rfl (by decide) (by decide)

/-! ### Lemmas about the event-trace extractors and the fetch loop -/

theorem progress_values_append (a b : List ApiEvent) :
    progress_values (a ++ b) = progress_values a ++ progress_values b := by
  induction a with
  | nil => rfl
  | cons e a ih => cases e <;> simp [progress_values, ih]

theorem detail_requests_append (a b : List ApiEvent) :
    detail_requests (a ++ b) = detail_requests a ++ detail_requests b := by
  induction a with
  | nil => rfl
  | cons e a ih => cases e <;> simp [detail_requests, ih]

theorem ids_request_counts_append (a b : List ApiEvent) :
    ids_request_counts (a ++ b) = ids_request_counts a ++ ids_request_counts b := by
  induction a with
  | nil => rfl
  | cons e a ih => cases e <;> simp [ids_request_counts, ih]

theorem fetch_loop_no_ids_request (env : ApiEnv) (puuid : String)
    (mc total : Nat) :
    ∀ (l : List String) (idx : Nat) (acc : List MatchData),
      ids_request_counts (fetch_loop env puuid mc total l idx acc).1 = [] := by
  intro l
  induction l with
  | nil => intro idx acc; rfl
  | cons id rest ih =>
    intro idx acc
    rcases hmd : fetch_one env puuid id with _ | md
    · simp only [fetch_loop, hmd]
      simp [ids_request_counts_append, ids_request_counts, ih]
    · simp only [fetch_loop, hmd]
      split
      · simp [ids_request_counts]
      · simp [ids_request_counts_append, ids_request_counts, ih]

theorem filterMap_length_all_some {α β : Type} (f : α → Option β) :
    ∀ l : List α, (∀ x ∈ l, (f x).isSome) → (l.filterMap f).length = l.length := by
  intro l
  induction l with
  | nil => intro _; rfl
  | cons a l ih =>
    intro h
    obtain ⟨b, hb⟩ := Option.isSome_iff_exists.mp (h a (List.mem_cons_self a l))
    rw [List.filterMap_cons_some hb, List.length_cons, List.length_cons,
      ih (fun x hx => h x (List.mem_cons_of_mem a hx))]

theorem fetch_loop_all_valid (env : ApiEnv) (puuid : String) (mc total : Nat) :
    ∀ (l : List String) (idx : Nat) (acc : List MatchData) (m : Nat),
      (∀ id ∈ l, (fetch_one env puuid id).isSome) →
      acc.length + (m + 1) = mc → m + 1 ≤ l.length →
      detail_requests (fetch_loop env puuid mc total l idx acc).1 = l.take (m + 1) ∧
      (fetch_loop env puuid mc total l idx acc).2 =
        acc ++ (l.take (m + 1)).filterMap (fetch_one env puuid) := by
  intro l
  induction l with
  | nil =>
    intro idx acc m _ _ hle
    simp at hle
  | cons id rest ih =>
    intro idx acc m hval hsum hle
    obtain ⟨md, hmd⟩ := Option.isSome_iff_exists.mp
      (hval id (List.mem_cons_self id rest))
    simp only [fetch_loop, hmd]
    rcases Nat.eq_zero_or_pos m with rfl | hm
    · have hstop : mc ≤ (acc ++ [md]).length := by
        simp
        omega
      rw [if_pos hstop]
      refine ⟨rfl, ?_⟩
      simp [List.filterMap_cons_some hmd]
    · have hstop : ¬ mc ≤ (acc ++ [md]).length := by
        simp
        omega
      rw [if_neg hstop]
      obtain ⟨m1, rfl⟩ : ∃ m1, m = m1 + 1 := ⟨m - 1, by omega⟩
      have hrec := ih (idx + 1) (acc ++ [md]) m1
        (fun i hi => hval i (List.mem_cons_of_mem id hi))
        (by simp; omega) (by simp at hle ⊢; omega)
      constructor
      · rw [detail_requests_append, hrec.1]
        rfl
      · rw [hrec.2, List.take_succ_cons, List.filterMap_cons_some hmd]
        simp

theorem fetch_loop_under (env : ApiEnv) (puuid : String) (mc total : Nat) :
    ∀ (l : List String) (idx : Nat) (acc : List MatchData),
      acc.length + (l.filterMap (fetch_one env puuid)).length < mc →
      detail_requests (fetch_loop env puuid mc total l idx acc).1 = l ∧
      (fetch_loop env puuid mc total l idx acc).2 =
        acc ++ l.filterMap (fetch_one env puuid) := by
  intro l
  induction l with
  | nil =>
    intro idx acc _
    exact ⟨rfl, by simp [fetch_loop]⟩
  | cons id rest ih =>
    intro idx acc hfew
    rcases hmd : fetch_one env puuid id with _ | md
    · rw [List.filterMap_cons_none hmd] at hfew ⊢
      simp only [fetch_loop, hmd]
      have hrec := ih (idx + 1) acc hfew
      rw [detail_requests_append, hrec.1, hrec.2]
      exact ⟨rfl, rfl⟩
    · rw [List.filterMap_cons_some hmd] at hfew ⊢
      simp only [fetch_loop, hmd]
      have hstop : ¬ mc ≤ (acc ++ [md]).length := by
        simp at hfew ⊢
        omega
      rw [if_neg hstop]
      have hrec := ih (idx + 1) (acc ++ [md]) (by simp at hfew ⊢; omega)
      rw [detail_requests_append, hrec.1, hrec.2]
      exact ⟨rfl, by simp⟩

theorem fetch_loop_length_le (env : ApiEnv) (puuid : String) (mc total : Nat) :
    ∀ (l : List String) (idx : Nat) (acc : List MatchData),
      acc.length ≤ (fetch_loop env puuid mc total l idx acc).2.length := by
  intro l
  induction l with
  | nil => intro idx acc; exact le_refl _
  | cons id rest ih =>
    intro idx acc
    rcases hmd : fetch_one env puuid id with _ | md
    · simp only [fetch_loop, hmd]
      exact ih (idx + 1) acc
    · simp only [fetch_loop, hmd]
      by_cases hstop : mc ≤ (acc ++ [md]).length
      · rw [if_pos hstop]
        simp
      · rw [if_neg hstop]
        calc acc.length ≤ (acc ++ [md]).length := by simp
          _ ≤ _ := ih (idx + 1) (acc ++ [md])

theorem fetch_loop_ne_nil (env : ApiEnv) (puuid : String) (mc total : Nat) :
    ∀ (l : List String) (idx : Nat) (acc : List MatchData),
      (∃ id ∈ l, (fetch_one env puuid id).isSome) →
      (fetch_loop env puuid mc total l idx acc).2 ≠ [] := by
  intro l
  induction l with
  | nil =>
    intro idx acc h
    simp at h
  | cons id rest ih =>
    intro idx acc hex
    rcases hmd : fetch_one env puuid id with _ | md
    · simp only [fetch_loop, hmd]
      obtain ⟨i, hi, hsome⟩ := hex
      rcases List.mem_cons.mp hi with rfl | hi
      · rw [hmd] at hsome
        exact absurd hsome (by simp)
      · exact ih (idx + 1) acc ⟨i, hi, hsome⟩
    · simp only [fetch_loop, hmd]
      by_cases hstop : mc ≤ (acc ++ [md]).length
      · rw [if_pos hstop]
        simp
      · rw [if_neg hstop]
        have hlen := fetch_loop_length_le env puuid mc total rest (idx + 1) (acc ++ [md])
        intro hcon
        rw [hcon] at hlen
        simp at hlen

theorem fetch_loop_progress_shape (env : ApiEnv) (puuid : String)
    (mc total : Nat) :
    ∀ (l : List String) (idx : Nat) (acc : List MatchData),
      ∃ k, k ≤ l.length ∧
        progress_values (fetch_loop env puuid mc total l idx acc).1 =
          (List.range k).map (fun j => 30 + ((idx + j + 1) * 70) / total) := by
  intro l
  induction l with
  | nil =>
    intro idx acc
    exact ⟨0, by simp, rfl⟩
  | cons id rest ih =>
    intro idx acc
    have harg : ∀ j, idx + (j + 1) + 1 = idx + 1 + j + 1 := by omega
    rcases hmd : fetch_one env puuid id with _ | md
    · simp only [fetch_loop, hmd]
      obtain ⟨k, hk, hpv⟩ := ih (idx + 1) acc
      refine ⟨k + 1, by simp; omega, ?_⟩
      rw [progress_values_append, hpv, List.range_succ_eq_map]
      simp [progress_values, List.map_map, Function.comp, harg]
    · simp only [fetch_loop, hmd]
      by_cases hstop : mc ≤ (acc ++ [md]).length
      · rw [if_pos hstop]
        refine ⟨1, by simp, ?_⟩
        show _ = List.map (fun j => 30 + (idx + j + 1) * 70 / total) [0]
        simp [progress_values]
      · rw [if_neg hstop]
        obtain ⟨k, hk, hpv⟩ := ih (idx + 1) (acc ++ [md])
        refine ⟨k + 1, by simp; omega, ?_⟩
        rw [progress_values_append, hpv, List.range_succ_eq_map]
        simp [progress_values, List.map_map, Function.comp, harg]

theorem loop_progress_le (total j k : Nat) (ht : 0 < total) (hjk : j < k)
    (hk : k ≤ total) : 30 + ((j + 1) * 70) / total ≤ 100 := by
  have h1 : (j + 1) * 70 ≤ total * 70 := Nat.mul_le_mul_right 70 (by omega)
  have h2 : ((j + 1) * 70) / total ≤ total * 70 / total := Nat.div_le_div_right h1
  rw [Nat.mul_div_cancel_left 70 ht] at h2
  omega

theorem loop_progress_mono (total i j : Nat) (hij : i < j) :
    30 + ((i + 1) * 70) / total ≤ 30 + ((j + 1) * 70) / total := by
  have h := Nat.div_le_div_right (c := total)
    (Nat.mul_le_mul_right 70 (by omega : i + 1 ≤ j + 1))
  omega

theorem worker_progress_pairwise (k total : Nat) :
    List.Pairwise (· ≤ ·)
      (5 :: 10 :: 30 :: (List.range k).map (fun j => 30 + ((j + 1) * 70) / total)) := by
  have hmap : List.Pairwise (· ≤ ·)
      ((List.range k).map (fun j => 30 + ((j + 1) * 70) / total)) := by
    rw [List.pairwise_map]
    exact (List.pairwise_lt_range k).imp (fun h => loop_progress_mono total _ _ h)
  have hge : ∀ v ∈ (List.range k).map (fun j => 30 + ((j + 1) * 70) / total),
      30 ≤ v := by
    intro v hv
    rw [List.mem_map] at hv
    obtain ⟨j, _, rfl⟩ := hv
    exact Nat.le_add_right 30 _
  refine List.Pairwise.cons ?_ (List.Pairwise.cons ?_ (List.Pairwise.cons ?_ hmap))
  · intro v hv
    rcases List.mem_cons.mp hv with rfl | hv
    · omega
    · rcases List.mem_cons.mp hv with rfl | hv
      · omega
      · have := hge v hv
        omega
  · intro v hv
    rcases List.mem_cons.mp hv with rfl | hv
    · omega
    · have := hge v hv
      omega
  · intro v hv
    have := hge v hv
    omega

theorem worker_progress_bounded (k total : Nat) (ht : 0 < total) (hk : k ≤ total) :
    ∀ v ∈ 5 :: 10 :: 30 :: (List.range k).map (fun j => 30 + ((j + 1) * 70) / total),
      v ≤ 100 := by
  intro v hv
  simp only [List.mem_cons, List.mem_map, List.mem_range] at hv
  rcases hv with rfl | rfl | rfl | ⟨j, hj, rfl⟩
  · omega
  · omega
  · omega
  · exact loop_progress_le total j k ht hj hk

theorem worker_progress_shape (env : ApiEnv) (nick tag : String) (mc : Nat) :
    progress_values (worker_run env nick tag mc).1 = [5] ∨
    progress_values (worker_run env nick tag mc).1 = [5, 10] ∨
    ∃ k total, 0 < total ∧ k ≤ total ∧
      progress_values (worker_run env nick tag mc).1 =
        5 :: 10 :: 30 :: (List.range k).map (fun j => 30 + ((j + 1) * 70) / total) := by
  rcases hpu : env.puuid_resp nick tag with _ | puuid
  · left
    simp [worker_run, hpu, progress_values]
  · by_cases hids : env.match_ids_resp puuid (mc * 2) = []
    · right; left
      simp [worker_run, hpu, hids, progress_values]
    · right; right
      obtain ⟨k, hk, hpv⟩ := fetch_loop_progress_shape env puuid mc
        (env.match_ids_resp puuid (mc * 2)).length
        (env.match_ids_resp puuid (mc * 2)) 0 []
      refine ⟨k, (env.match_ids_resp puuid (mc * 2)).length,
        List.length_pos.mpr hids, hk, ?_⟩
      simp only [worker_run, hpu, if_neg hids]
      split <;>
        simp [progress_values_append, progress_values, hpv]

/-- C5: the worker requests `2 × desiredCount` match ids; when the listing
returns `2N` ids that are all valid, exactly the first `N` of them are
fetched (the trailing `N` are never requested) and the run finishes with
the `N` summaries in upstream order. -/
theorem C5_early_stop (env : ApiEnv) (nick tag puuid : String) (N : Nat)
    (ids : List String) (hN : 0 < N)
    (hpu : env.puuid_resp nick tag = some puuid)
    (hids : env.match_ids_resp puuid (N * 2) = ids)
    (hlen : ids.length = 2 * N)
    (hvalid : ∀ id ∈ ids, (fetch_one env puuid id).isSome) :
    ids_request_counts (worker_run env nick tag N).1 = [N * 2] ∧
    detail_requests (worker_run env nick tag N).1 = ids.take N ∧
    (worker_run env nick tag N).2 = RunOutcome.finishedOk
      ((ids.take N).filterMap (fetch_one env puuid)) ∧
    ((ids.take N).filterMap (fetch_one env puuid)).length = N := by
  obtain ⟨m, rfl⟩ : ∃ m, N = m + 1 := ⟨N - 1, by omega⟩
  have hne : ids ≠ [] := by
    intro hcon
    rw [hcon] at hlen
    simp at hlen
  have hloop := fetch_loop_all_valid env puuid (m + 1) ids.length ids 0 [] m
    hvalid (by simp) (by omega)
  have hlen2 : ((ids.take (m + 1)).filterMap (fetch_one env puuid)).length
      = m + 1 := by
    rw [filterMap_length_all_some _ _
      (fun x hx => hvalid x (List.take_subset (m + 1) ids hx)), List.length_take]
    omega
  have hres : (fetch_loop env puuid (m + 1) ids.length ids 0 []).2 =
      (ids.take (m + 1)).filterMap (fetch_one env puuid) := by
    rw [hloop.2]
    simp
  have hres_ne : (fetch_loop env puuid (m + 1) ids.length ids 0 []).2 ≠ [] := by
    rw [hres]
    intro hcon
    rw [hcon] at hlen2
    simp at hlen2
  simp only [worker_run, hpu, hids]
  rw [if_neg hne, if_neg hres_ne]
  refine ⟨?_, ?_, ?_, hlen2⟩
  · simp [ids_request_counts_append, ids_request_counts,
      fetch_loop_no_ids_request]
  · simp [detail_requests_append, detail_requests, hloop.1]
  · rw [hres]

def w_ok_env : ApiEnv :=
  ⟨fun _ _ => some "P", fun _ _ => ["a", "b"], fun _ => some w_dup_info⟩

/-- Witness for C5: with `desiredCount = 1` and two valid listed ids, only
the first id is fetched and exactly one summary is emitted. -/
theorem C5_early_stop_witness :
    ids_request_counts (worker_run w_ok_env "n" "t" 1).1 = [1 * 2] ∧
    detail_requests (worker_run w_ok_env "n" "t" 1).1 = ["a", "b"].take 1 ∧
    (worker_run w_ok_env "n" "t" 1).2 = RunOutcome.finishedOk
      ((["a", "b"].take 1).filterMap (fetch_one w_ok_env "P")) ∧
    ((["a", "b"].take 1).filterMap (fetch_one w_ok_env "P")).length = 1 :=
  C5_early_stop w_ok_env "n" "t" "P" 1 ["a", "b"] (by decide) rfl rfl (by decide)
    (by decide)

/-- C6: an identity-resolution failure aborts the run with an error before
any listing or match-detail request; a listing failure aborts with an error
before any match-detail request; per-match failures never abort — whenever
any listed match is valid, the run finishes with results. -/
theorem C6_failure_policy (env : ApiEnv) (nick tag : String) (mc : Nat) :
    (env.puuid_resp nick tag = none →
      (∃ msg, (worker_run env nick tag mc).2 = RunOutcome.errorMsg msg) ∧
      ids_request_counts (worker_run env nick tag mc).1 = [] ∧
      detail_requests (worker_run env nick tag mc).1 = []) ∧
    (∀ puuid, env.puuid_resp nick tag = some puuid →
      env.match_ids_resp puuid (mc * 2) = [] →
      (∃ msg, (worker_run env nick tag mc).2 = RunOutcome.errorMsg msg) ∧
      detail_requests (worker_run env nick tag mc).1 = []) ∧
    (∀ puuid, env.puuid_resp nick tag = some puuid →
      (∃ id ∈ env.match_ids_resp puuid (mc * 2),
        (fetch_one env puuid id).isSome) →
      ∃ results, (worker_run env nick tag mc).2 =
        RunOutcome.finishedOk results) := by
  refine ⟨?_, ?_, ?_⟩
  · intro hpu
    simp only [worker_run, hpu]
    exact ⟨⟨_, rfl⟩, rfl, rfl⟩
  · intro puuid hpu hids
    simp only [worker_run, hpu, hids]
    simp only [if_true]
    exact ⟨⟨_, rfl⟩, rfl⟩
  · intro puuid hpu hex
    have hne : env.match_ids_resp puuid (mc * 2) ≠ [] := by
      obtain ⟨i, hi, _⟩ := hex
      intro hcon
      rw [hcon] at hi
      exact absurd hi (List.not_mem_nil i)
    simp only [worker_run, hpu]
    rw [if_neg hne, if_neg (fetch_loop_ne_nil env puuid mc _ _ 0 [] hex)]
    exact ⟨_, rfl⟩

def w_noident_env : ApiEnv := ⟨fun _ _ => none, fun _ _ => ["a"], fun _ => none⟩

/-- Witness for C6: with a failing identity lookup, no listing and no
match-detail request is ever issued. -/
theorem C6_failure_policy_witness :
    ids_request_counts (worker_run w_noident_env "n" "t" 5).1 = [] ∧
    detail_requests (worker_run w_noident_env "n" "t" 5).1 = [] := by
  have h := (C6_failure_policy w_noident_env "n" "t" 5).1 rfl
  exact ⟨h.2.1, h.2.2⟩

/-- C7: when fewer listed matches pass filtering than `desiredCount`, every
listed id is fetched and the emitted result is exactly the passing matches
in upstream order; when none passes, the run fails with the no-valid-match
error instead of emitting a result. -/
theorem C7_exhaustion (env : ApiEnv) (nick tag puuid : String) (mc : Nat)
    (ids : List String)
    (hpu : env.puuid_resp nick tag = some puuid)
    (hids : env.match_ids_resp puuid (mc * 2) = ids)
    (hne : ids ≠ [])
    (hfew : (ids.filterMap (fetch_one env puuid)).length < mc) :
    detail_requests (worker_run env nick tag mc).1 = ids ∧
    (ids.filterMap (fetch_one env puuid) = [] →
      (worker_run env nick tag mc).2 = RunOutcome.errorMsg
        "No valid Summoner\x27s Rift matches found for this player.") ∧
    (ids.filterMap (fetch_one env puuid) ≠ [] →
      (worker_run env nick tag mc).2 =
        RunOutcome.finishedOk (ids.filterMap (fetch_one env puuid))) := by
  have hloop := fetch_loop_under env puuid mc ids.length ids 0 []
    (by simpa using hfew)
  have hres : (fetch_loop env puuid mc ids.length ids 0 []).2 =
      ids.filterMap (fetch_one env puuid) := by
    rw [hloop.2]
    simp
  refine ⟨?_, ?_, ?_⟩
  · simp only [worker_run, hpu, hids]
    rw [if_neg hne]
    by_cases hz : ids.filterMap (fetch_one env puuid) = []
    · rw [if_pos (by rw [hres]; exact hz)]
      simp [detail_requests_append, detail_requests, hloop.1]
    · rw [if_neg (by rw [hres]; exact hz)]
      simp [detail_requests_append, detail_requests, hloop.1]
  · intro hz
    simp only [worker_run, hpu, hids]
    rw [if_neg hne, if_pos (by rw [hres]; exact hz)]
  · intro hnz
    simp only [worker_run, hpu, hids]
    rw [if_neg hne, if_neg (by rw [hres]; exact hnz), hres]

def w_sparse_env : ApiEnv :=
  ⟨fun _ _ => some "P", fun _ _ => ["a", "b"],
   fun id => if id = "b" then some w_dup_info else none⟩

/-- Witness for C7: with two listed ids of which only the second passes and
`desiredCount = 5`, the run still finishes, emitting just that match. -/
theorem C7_exhaustion_witness :
    (worker_run w_sparse_env "n" "t" 5).2 =
      RunOutcome.finishedOk (["a", "b"].filterMap (fetch_one w_sparse_env "P")) :=
  (C7_exhaustion w_sparse_env "n" "t" "P" 5 ["a", "b"] rfl rfl (by decide)
    (by decide)).2.2 (by decide)

/-- C8: every progress value a run emits is an integer between 0 and 100,
the emitted sequence is monotonically non-decreasing, and it follows the
milestones 5 (identity lookup), 10 (identity resolved), 30 (ids listed),
then values interpolated from 30 toward 100 across the fetch loop. -/
theorem C8_progress (env : ApiEnv) (nick tag : String) (mc : Nat) :
    List.Pairwise (· ≤ ·) (progress_values (worker_run env nick tag mc).1) ∧
    (∀ v ∈ progress_values (worker_run env nick tag mc).1, v ≤ 100) ∧
    (progress_values (worker_run env nick tag mc).1 = [5] ∨
     progress_values (worker_run env nick tag mc).1 = [5, 10] ∨
     ∃ k total, 0 < total ∧ k ≤ total ∧
       progress_values (worker_run env nick tag mc).1 =
         5 :: 10 :: 30 ::
           (List.range k).map (fun j => 30 + ((j + 1) * 70) / total)) := by
  have hshape := worker_progress_shape env nick tag mc
  refine ⟨?_, ?_, hshape⟩
  · rcases hshape with h | h | ⟨k, total, ht, hk, h⟩ <;> rw [h]
    · decide
    · decide
    · exact worker_progress_pairwise k total
  · rcases hshape with h | h | ⟨k, total, ht, hk, h⟩ <;> rw [h]
    · intro v hv
      simp at hv
      omega
    · intro v hv
      simp at hv
      rcases hv with rfl | rfl <;> omega
    · exact worker_progress_bounded k total ht hk

/-- Witness for C8: the progress sequence of a concrete successful run is
non-decreasing and bounded by 100. -/
theorem C8_progress_witness :
    List.Pairwise (· ≤ ·) (progress_values (worker_run w_ok_env "n" "t" 1).1) ∧
    (∀ v ∈ progress_values (worker_run w_ok_env "n" "t" 1).1, v ≤ 100) ∧
    (progress_values (worker_run w_ok_env "n" "t" 1).1 = [5] ∨
     progress_values (worker_run w_ok_env "n" "t" 1).1 = [5, 10] ∨
     ∃ k total, 0 < total ∧ k ≤ total ∧
       progress_values (worker_run w_ok_env "n" "t" 1).1 =
         5 :: 10 :: 30 ::
           (List.range k).map (fun j => 30 + ((j + 1) * 70) / total)) :=
  C8_progress w_ok_env "n" "t" 1

end HowBad
